import Mathlib

/-!
Shallow embedding of the shopifymod synchronization program:
the value normalizer and reference resolver (`src/utils/helpers.py`),
the mapping store (`src/db/product_mapper.py` over the schema of
`src/db/migrations.py`), and the sync orchestrator loop and payload
construction (`src/main.py`), together with theorems settling the
specification claims about them.
-/

namespace ShopifySync

/-- A Python cell value as it appears in a pandas row: `None`, the float
`NaN`, a string, a finite number (modelled as a rational; Python float
formatting of numbers is modelled by `toString`), or a boolean. -/
inductive PyVal where
  | none
  | nan
  | str (s : String)
  | num (q : ℚ)
  | boolean (b : Bool)
deriving DecidableEq, Repr

/-- Python `str(value)` on the values of `PyVal`. -/
def pyStr : PyVal → String
  | PyVal.none => "None"
  | PyVal.nan => "nan"
  | PyVal.str s => s
  | PyVal.num q => toString q
  | PyVal.boolean b => if b then "True" else "False"

/-- `pd.isna(value)`: true exactly on `None` and `NaN`. -/
def pyIsNa : PyVal → Bool
  | PyVal.none => true
  | PyVal.nan => true
  | _ => false

/-- Python whitespace as stripped by `str.strip()` (modelled as the ASCII
whitespace characters). -/
def isPySpace (c : Char) : Bool :=
  c = ' ' || c = '\t' || c = '\n' || c = '\r' || c = '\x0b' || c = '\x0c'

/-- Python `s.strip()`: drop leading and trailing whitespace. -/
def pyStrip (s : String) : String :=
  String.mk (((s.data.dropWhile isPySpace).reverse.dropWhile isPySpace).reverse)

/-- `clean_value` from `src/utils/helpers.py`: maps `None`, `NaN`, the
strings `"nan"`/`"NaN"` and whitespace-only renderings to `""`, and
otherwise returns the stripped string rendering. -/
def clean_value (v : PyVal) : String :=
  if v = PyVal.none ∨ pyIsNa v = true ∨ v = PyVal.str "nan" ∨ v = PyVal.str "NaN"
      ∨ pyStrip (pyStr v) = "" then ""
  else pyStrip (pyStr v)

/-- Python `s.split(sep)` for a one-character separator, on a list of
characters: splits at every occurrence of `sep`, keeping empty segments,
and yields `[[]]` on the empty string. -/
def pySplitOn (sep : Char) : List Char → List (List Char)
  | [] => [[]]
  | c :: cs =>
    if c = sep then [] :: pySplitOn sep cs
    else
      match pySplitOn sep cs with
      | [] => [[c]]
      | p :: ps => (c :: p) :: ps

/-- `reference.split('/')`. -/
def splitSlash (l : List Char) : List (List Char) :=
  pySplitOn '/' l

/-- `is_variant_reference` from `src/utils/helpers.py`: `'/' in reference`. -/
def is_variant_reference (s : String) : Bool :=
  s.data.contains '/'

/-- `get_base_reference` from `src/utils/helpers.py`:
`reference.split('/')[0] if '/' in reference else reference`. -/
def get_base_reference (s : String) : String :=
  if s.data.contains '/' then String.mk ((splitSlash s.data).headD []) else s

/-- `get_variant_size` from `src/utils/helpers.py`:
`reference.split('/')[1] if '/' in reference else None`. -/
def get_variant_size (s : String) : Option String :=
  if s.data.contains '/' then some (String.mk ((splitSlash s.data).getD 1 [])) else Option.none

/-! ### format_price (`src/utils/helpers.py`) -/

/-- A Python float as far as this program can observe it: a finite value
(modelled as a rational) or `NaN`. -/
inductive PyFloat where
  | num (q : ℚ)
  | nan
deriving DecidableEq, Repr

/-- `re.sub(r'[^\d.,]', '', s)`: keep only digits, `'.'` and `','`
(`\d` modelled as the ASCII digits). -/
def stripNonNumeric (s : String) : String :=
  String.mk (s.data.filter (fun c => c.isDigit || c = '.' || c = ','))

/-- `s.replace(',', '.')`: every comma becomes a point. -/
def commaToPoint (s : String) : String :=
  String.mk (s.data.map (fun c => if c = ',' then '.' else c))

/-- Numeric value of a list of ASCII digit characters (most significant
first); the empty list reads as `0`. -/
def digitsVal (l : List Char) : ℕ :=
  l.foldl (fun n c => 10 * n + (c.toNat - '0'.toNat)) 0

/-- Python `float(s)` restricted to the strings reachable inside
`format_price`, which after cleaning consist only of digits and `'.'`
(signs, exponents and spaces have been stripped): a single run of digits,
or two runs around one `'.'` with at least one digit in total; anything
else (several dots, no digits, a stray character) raises `ValueError`,
modelled as `Except.error`. -/
def pyFloatOfNumString (s : String) : Except Unit ℚ :=
  match pySplitOn '.' s.data with
  | [a] =>
    if a ≠ [] ∧ a.all Char.isDigit then Except.ok (digitsVal a)
    else Except.error ()
  | [a, b] =>
    if (a ≠ [] ∨ b ≠ []) ∧ a.all Char.isDigit ∧ b.all Char.isDigit then
      Except.ok ((digitsVal a : ℚ) + (digitsVal b : ℚ) / (10 : ℚ) ^ b.length)
    else Except.error ()
  | _ => Except.error ()

/-- Python `float(value)` on a `PyVal`: `None` raises `TypeError`
(modelled as `Except.error`), `NaN` is already a float, numbers and
booleans convert, strings parse as above. -/
def pyFloatOfVal : PyVal → Except Unit PyFloat
  | PyVal.none => Except.error ()
  | PyVal.nan => Except.ok PyFloat.nan
  | PyVal.num q => Except.ok (PyFloat.num q)
  | PyVal.boolean b => Except.ok (PyFloat.num (if b then 1 else 0))
  | PyVal.str s => (pyFloatOfNumString s).map PyFloat.num

/-- The reassignment performed inside `format_price`'s `isinstance(price,
str)` branch: strings are stripped of non-numeric characters and commas
become points; every other value is passed to `float` unchanged. -/
def cleanedInput (price : PyVal) : PyVal :=
  match price with
  | PyVal.str s => PyVal.str (commaToPoint (stripNonNumeric s))
  | v => v

/-- `format_price` from `src/utils/helpers.py`: clean string inputs, call
`float`, and catch `ValueError`/`TypeError` (the only exceptions `float`
raises here), returning `0.0` in that case. -/
def format_price (price : PyVal) : PyFloat :=
  match pyFloatOfVal (cleanedInput price) with
  | Except.ok f => f
  | Except.error _ => PyFloat.num 0

/-! ### Rows, validation and variant grouping (`src/utils/helpers.py`) -/

/-- A spreadsheet row as the program reads it. `REFERENCIA` is always a
column of the frame (a frame without it fails before any per-row code
runs); the other required columns may be absent from the file, which is
modelled by `Option` (`Option.none` = the column is missing, so
`field not in data` holds and `row[field]` raises `KeyError`). -/
structure Row where
  referencia : PyVal
  descripcion : Option PyVal
  precio : Option PyVal
  tipo : Option PyVal
deriving DecidableEq, Repr

/-- The per-field test of `validate_product_data` for a present value:
`pd.isna(v) or str(v).strip() == ''`. -/
def fieldMissingVal (v : PyVal) : Bool :=
  pyIsNa v || (pyStrip (pyStr v) == "")

/-- The per-field test of `validate_product_data` for a possibly absent
column: `field not in data or pd.isna(data[field]) or str(data[field]).strip() == ''`. -/
def fieldMissing : Option PyVal → Bool
  | Option.none => true
  | some v => fieldMissingVal v

/-- `validate_product_data` from `src/utils/helpers.py`: checks the four
required columns `REFERENCIA`, `DESCRIPCION`, `PRECIO`, `TIPO` in order
and returns (all present, names of the missing ones). -/
def validate_product_data (row : Row) : Bool × List String :=
  let missing :=
    (if fieldMissingVal row.referencia then ["referencia"] else []) ++
    (if fieldMissing row.descripcion then ["descripción"] else []) ++
    (if fieldMissing row.precio then ["precio"] else []) ++
    (if fieldMissing row.tipo then ["tipo"] else [])
  (missing.isEmpty, missing)

/-- `hasMissingRequired row` holds when one of the four required fields is
absent from the row or blank after cleaning — the hypothesis of claim C7. -/
def hasMissingRequired (row : Row) : Bool :=
  fieldMissingVal row.referencia || fieldMissing row.descripcion ||
    fieldMissing row.precio || fieldMissing row.tipo

/-- `clean_value(row['REFERENCIA'])` of a row. -/
def refOf (row : Row) : String :=
  clean_value row.referencia

/-- The base reference of a row, `get_base_reference(clean_value(row['REFERENCIA']))`. -/
def baseOf (row : Row) : String :=
  get_base_reference (refOf row)

/-- Whether the row's cleaned reference is a variant reference. -/
def isVar (row : Row) : Bool :=
  is_variant_reference (refOf row)

/-- One bucket of `group_variants`: the value stored in the `products`
dictionary for one base reference. -/
structure ProductGroup where
  is_variant_product : Bool
  base_data : Row
  variants : List Row
deriving DecidableEq, Repr

/-- First-match lookup in an insertion-ordered association list (a Python
dict whose keys are strings). -/
def lookupA {β : Type} : List (String × β) → String → Option β
  | [], _ => Option.none
  | p :: ps, k => if p.1 = k then some p.2 else lookupA ps k

/-- Pointwise update of the entry with the given key (a Python dict item
assignment; keys are unique, so at most one entry changes). -/
def updateA {β : Type} (l : List (String × β)) (k : String) (f : β → β) :
    List (String × β) :=
  l.map (fun p => if p.1 = k then (p.1, f p.2) else p)

/-- The `if base_reference not in products` block of `group_variants`:
insert a fresh simple bucket holding the row as `base_data`. -/
def registerBase (acc : List (String × ProductGroup)) (row : Row) :
    List (String × ProductGroup) :=
  if (lookupA acc (baseOf row)).isSome then acc
  else acc ++ [(baseOf row, ProductGroup.mk false row [])]

/-- One iteration of the row loop in `group_variants`
(`src/utils/helpers.py`): register the base bucket, then either mark the
bucket as a variant product and append the row to its variants (when the
reference carries a `'/'`), or store the row as the sole variant of a
still-empty bucket. -/
def groupStep (acc : List (String × ProductGroup)) (row : Row) :
    List (String × ProductGroup) :=
  let acc1 := registerBase acc row
  if isVar row then
    updateA acc1 (baseOf row)
      (fun g => ProductGroup.mk true g.base_data (g.variants ++ [row]))
  else
    updateA acc1 (baseOf row)
      (fun g => if g.variants.isEmpty then
          ProductGroup.mk g.is_variant_product g.base_data [row]
        else g)

/-- `group_variants` from `src/utils/helpers.py`: fold the rows into an
insertion-ordered dictionary of buckets keyed by base reference. -/
def group_variants (rows : List Row) : List (String × ProductGroup) :=
  rows.foldl groupStep []

/-! ### The mapping store (`src/db/product_mapper.py` over the schema of
`src/db/migrations.py`) -/

/-- The fields of a remote product object that `save_product_mapping` reads. -/
structure ShopifyProduct where
  id : Int
  handle : String
  title : String
deriving DecidableEq, Repr

/-- The fields of a remote variant object that `save_variant_mapping` reads. -/
structure ShopifyVariant where
  id : Int
  product_id : Int
  price : ℚ
deriving DecidableEq, Repr

/-- A row of `product_mappings` (`internal_reference` is UNIQUE; the
auto-increment id and the timestamps are not observed by any claim). -/
structure ProductRow where
  internal_reference : String
  shopify_product_id : Int
  shopify_handle : String
  title : String
deriving DecidableEq, Repr

/-- A row of `variant_mappings` (`internal_sku` is UNIQUE,
`parent_reference` is a foreign key into `product_mappings` with
`ON DELETE CASCADE`). -/
structure VariantRow where
  internal_sku : String
  shopify_variant_id : Int
  shopify_product_id : Int
  parent_reference : String
  size : Option String
  price : ℚ
deriving DecidableEq, Repr

/-- A row of the append-only `sync_log` table. -/
structure LogRow where
  internal_reference : String
  action : String
  status : String
  message : String
deriving DecidableEq, Repr

/-- The three tables created by `create_tables` in `src/db/migrations.py`. -/
structure DBState where
  product_mappings : List ProductRow
  variant_mappings : List VariantRow
  sync_log : List LogRow
deriving DecidableEq, Repr

/-- `INSERT ... ON DUPLICATE KEY UPDATE` on `product_mappings`: when a row
with the same unique `internal_reference` exists its data columns are
overwritten, otherwise the new row is appended. -/
def upsertProduct (t : List ProductRow) (r : ProductRow) : List ProductRow :=
  if t.any (fun x => x.internal_reference == r.internal_reference) then
    t.map (fun x =>
      if x.internal_reference == r.internal_reference then
        { x with shopify_product_id := r.shopify_product_id,
                 shopify_handle := r.shopify_handle, title := r.title }
      else x)
  else t ++ [r]

/-- `INSERT ... ON DUPLICATE KEY UPDATE` on `variant_mappings`, keyed by
the unique `internal_sku`. -/
def upsertVariant (t : List VariantRow) (r : VariantRow) : List VariantRow :=
  if t.any (fun x => x.internal_sku == r.internal_sku) then
    t.map (fun x =>
      if x.internal_sku == r.internal_sku then
        { x with shopify_variant_id := r.shopify_variant_id,
                 shopify_product_id := r.shopify_product_id,
                 size := r.size, price := r.price }
      else x)
  else t ++ [r]

/-- `_log_sync` from `src/db/product_mapper.py`: append one row to
`sync_log`; a failure of the append itself (`logFails`) is caught inside
`_log_sync` and leaves the state unchanged. -/
def logSync (db : DBState) (ref action status message : String)
    (logFails : Bool) : DBState :=
  if logFails then db
  else { db with sync_log := db.sync_log ++ [LogRow.mk ref action status message] }

/-- `save_product_mapping` from `src/db/product_mapper.py`. `queryFails`
models an exception raised by the primary `execute_query` (carrying
`str(e)`): on failure nothing is written, an error entry is logged and
`False` is returned; on success the upsert is applied, a success entry is
logged and `True` is returned. -/
def save_product_mapping (db : DBState) (ref : String) (sp : ShopifyProduct)
    (queryFails : Option String) (logFails : Bool) : DBState × Bool :=
  match queryFails with
  | some emsg => (logSync db ref "create_product" "error" emsg logFails, false)
  | Option.none =>
    let db1 := { db with
      product_mappings :=
        upsertProduct db.product_mappings (ProductRow.mk ref sp.id sp.handle sp.title) }
    (logSync db1 ref "create_product" "success"
      ("Product mapped successfully. Shopify ID: " ++ toString sp.id) logFails, true)

/-- Python `price or variant.price`: `None` and `0.0` are falsy, so both
fall back to the variant object's price. -/
def pyOrPrice (price : Option ℚ) (vprice : ℚ) : ℚ :=
  match price with
  | Option.none => vprice
  | some q => if q = 0 then vprice else q

/-- `save_variant_mapping` from `src/db/product_mapper.py`, with the same
failure modelling as `save_product_mapping`. -/
def save_variant_mapping (db : DBState) (sku : String) (v : ShopifyVariant)
    (parent_reference : String) (size : Option String) (price : Option ℚ)
    (queryFails : Option String) (logFails : Bool) : DBState × Bool :=
  match queryFails with
  | some emsg => (logSync db sku "create_variant" "error" emsg logFails, false)
  | Option.none =>
    let db1 := { db with
      variant_mappings :=
        upsertVariant db.variant_mappings
          (VariantRow.mk sku v.id v.product_id parent_reference size
            (pyOrPrice price v.price)) }
    (logSync db1 sku "create_variant" "success"
      ("Variant mapped successfully. Shopify ID: " ++ toString v.id) logFails, true)

/-- `delete_product_mapping` from `src/db/product_mapper.py`: `DELETE FROM
product_mappings WHERE internal_reference = %s`; the schema's `ON DELETE
CASCADE` removes every `variant_mappings` row whose `parent_reference`
matches the deleted reference. -/
def delete_product_mapping (db : DBState) (ref : String)
    (queryFails : Option String) (logFails : Bool) : DBState × Bool :=
  match queryFails with
  | some emsg => (logSync db ref "delete_product" "error" emsg logFails, false)
  | Option.none =>
    let db1 := { db with
      product_mappings := db.product_mappings.filter
        (fun p => !(p.internal_reference == ref)),
      variant_mappings := db.variant_mappings.filter
        (fun v => !(v.parent_reference == ref)) }
    (logSync db1 ref "delete_product" "success"
      "Product mapping deleted successfully" logFails, true)

/-- `get_product_mapping` from `src/db/product_mapper.py`: the first
product row matching the reference together with all variant rows whose
`parent_reference` matches, or `None` when no product row matches. -/
def get_product_mapping (db : DBState) (ref : String) :
    Option (ProductRow × List VariantRow) :=
  match db.product_mappings.filter (fun p => p.internal_reference == ref) with
  | [] => Option.none
  | p :: _ => some (p, db.variant_mappings.filter (fun v => v.parent_reference == ref))

/-- The UNIQUE constraint on `product_mappings.internal_reference`. -/
def uniqueRefs (t : List ProductRow) : Prop :=
  t.Pairwise (fun a b => a.internal_reference ≠ b.internal_reference)

/-- Number of `product_mappings` rows keyed by a reference. -/
def countRef (t : List ProductRow) (ref : String) : ℕ :=
  (t.filter (fun p => p.internal_reference == ref)).length

/-- The foreign-key invariant of §3: every variant row's parent reference
names an existing product row. -/
def fkInv (db : DBState) : Prop :=
  ∀ v ∈ db.variant_mappings, ∃ p ∈ db.product_mappings,
    p.internal_reference = v.parent_reference

/-! ### The orchestrator loop and payload construction (`src/main.py`) -/

/-- State of the record loop of `process_products`: the success and
failure tallies and the base references for which payload construction
was reached (no payload is ever built for a record that fails
validation). -/
structure LoopState where
  processed : ℕ
  failed : ℕ
  built : List String
deriving DecidableEq, Repr

/-- One iteration of the record loop in `process_products` (`src/main.py`,
api mode). Reading `base_row['DESCRIPCION']` raises `KeyError` when that
column is absent, which the per-record handler turns into a failure;
otherwise `validate_product_data` gates payload construction, and a
record failing validation is counted failed and skipped. What happens
after validation (payload preparation, the remote create call and the
mapping-store writes) is summarized by the `outcome` oracle: `true` means
the record was created, mapped and counted as processed, `false` means it
failed. -/
def processRecord (outcome : String → Bool) (st : LoopState)
    (rec : String × ProductGroup) : LoopState :=
  match rec.2.base_data.descripcion with
  | Option.none => { st with failed := st.failed + 1 }
  | some _ =>
    if (validate_product_data rec.2.base_data).1 = false then
      { st with failed := st.failed + 1 }
    else
      let st1 := { st with built := st.built ++ [rec.1] }
      if outcome rec.1 then { st1 with processed := st1.processed + 1 }
      else { st1 with failed := st1.failed + 1 }

/-- The record loop of `process_products` over the grouped products. -/
def process_products_loop (outcome : String → Bool)
    (recs : List (String × ProductGroup)) : LoopState :=
  recs.foldl (processRecord outcome) (LoopState.mk 0 0 [])

/-- Lexicographic `≤` on lists of characters by code point — the order
Python uses to compare strings. -/
def charListLe : List Char → List Char → Bool
  | [], _ => true
  | _ :: _, [] => false
  | a :: as, b :: bs => if a = b then charListLe as bs else decide (a < b)

/-- The comparison Python `sorted` applies to strings. -/
def pyStrLe (a b : String) : Prop :=
  charListLe a.data b.data = true

instance : DecidableRel pyStrLe :=
  fun a b => instDecidableEqBool (charListLe a.data b.data) true

/-- `sorted(list(set(xs)))` for strings: the distinct elements in
ascending lexicographic order (any stable comparison sort computes the
same list, so the model sorts by insertion). -/
def pySortedSet (xs : List String) : List String :=
  List.insertionSort pyStrLe xs.dedup

/-- The fields of one entry of `variants_data` read by
`create_variant_product`. -/
structure VariantData where
  size : String
  price : ℚ
  sku : String
  stock : Int
deriving DecidableEq, Repr

/-- The product-level fields read by `create_variant_product`. -/
structure ProductData where
  title : String
  body_html : String
  vendor : String
  product_type : String
  tags : String
  sku : String
deriving DecidableEq, Repr

/-- The payload of one `shopify.Variant` built inside
`create_variant_product`. -/
structure VariantPayload where
  option1 : String
  price : ℚ
  sku : String
deriving DecidableEq, Repr

/-- The creation payload assembled by `create_variant_product`. -/
structure ProductPayload where
  title : String
  body_html : String
  vendor : String
  product_type : String
  tags : String
  options : List (String × List String)
  variants : List VariantPayload
deriving DecidableEq, Repr

/-- The payload-construction portion of `create_variant_product`
(`src/main.py`): product fields, one `Talla` option whose values are
`sorted(list(set(tallas)))`, and one variant payload per entry of
`variants_data`. -/
def create_variant_product_payload (pd : ProductData) (vds : List VariantData) :
    ProductPayload :=
  { title := pd.title, body_html := pd.body_html, vendor := pd.vendor,
    product_type := pd.product_type, tags := pd.tags,
    options := [("Talla", pySortedSet (vds.map (fun v => v.size)))],
    variants := vds.map (fun v => VariantPayload.mk v.size v.price v.sku) }

/-! ### Concrete fixtures used by witnesses and counterexamples -/

/-- A row whose reference is the slashless `"XYZ"`. -/
def xyzRow : Row :=
  Row.mk (PyVal.str "XYZ") (some (PyVal.str "gold ring")) (some (PyVal.str "10"))
    (some (PyVal.str "Anillo"))

/-- A row whose reference is `"ABC/S"`. -/
def abcSRow : Row :=
  Row.mk (PyVal.str "ABC/S") (some (PyVal.str "gold ring")) (some (PyVal.str "10"))
    (some (PyVal.str "Anillo"))

/-- A row whose reference is `"ABC/M"`. -/
def abcMRow : Row :=
  Row.mk (PyVal.str "ABC/M") (some (PyVal.str "gold ring")) (some (PyVal.str "12"))
    (some (PyVal.str "Anillo"))

/-- A row with a blank `PRECIO` cell. -/
def badPriceRow : Row :=
  Row.mk (PyVal.str "DEF") (some (PyVal.str "gold ring")) (some (PyVal.str "  "))
    (some (PyVal.str "Anillo"))

/-- A row whose reference is the slashless `"ABC"`. -/
def abcPlainRow : Row :=
  Row.mk (PyVal.str "ABC") (some (PyVal.str "gold ring")) (some (PyVal.str "10"))
    (some (PyVal.str "Anillo"))

/-- The loop invariant of `group_variants`, relating the accumulator to
the rows already scanned: a bucket exists exactly for the base references
seen so far, a bucket is marked a variant product exactly when some
scanned row of that base carries a `'/'`-suffix, and a bucket's
`base_data` is the first scanned row of that base. -/
def groupInv (processed : List Row) (acc : List (String × ProductGroup)) : Prop :=
  (∀ b : String, (lookupA acc b).isSome = true ↔ ∃ r ∈ processed, baseOf r = b) ∧
  (∀ (b : String) (g : ProductGroup), lookupA acc b = some g →
    (g.is_variant_product = true ↔ ∃ r ∈ processed, baseOf r = b ∧ isVar r = true) ∧
    processed.find? (fun r => baseOf r == b) = some g.base_data)

/-! ## Theorems -/

theorem pySplitOn_ne_nil (sep : Char) (l : List Char) : pySplitOn sep l ≠ [] := by
  induction l with
  | nil => simp [pySplitOn]
  | cons c cs ih =>
    simp only [pySplitOn]
    split
    · simp
    · cases h : pySplitOn sep cs with
      | nil => simp
      | cons p ps => simp

theorem pySplitOn_headD (sep : Char) (l : List Char) :
    (pySplitOn sep l).headD [] = l.takeWhile (fun c => c ≠ sep) := by
  induction l with
  | nil => simp [pySplitOn]
  | cons c cs ih =>
    simp only [pySplitOn]
    by_cases hc : c = sep
    · simp [hc, List.takeWhile_cons]
    · simp only [hc, if_false]
      cases h : pySplitOn sep cs with
      | nil => exact absurd h (pySplitOn_ne_nil sep cs)
      | cons p ps =>
        rw [h] at ih
        simp only [List.headD_cons] at ih
        simp only [ne_eq, decide_not] at ih
        simp [List.takeWhile_cons, hc, ← ih, decide_not]

theorem pySplitOn_append (sep : Char) (a b : List Char) (ha : sep ∉ a) :
    pySplitOn sep (a ++ sep :: b) = a :: pySplitOn sep b := by
  induction a with
  | nil => simp [pySplitOn]
  | cons c cs ih =>
    have hc : c ≠ sep := fun h => ha (h ▸ List.mem_cons_self c cs)
    have hcs : sep ∉ cs := fun h => ha (List.mem_cons_of_mem c h)
    simp only [List.cons_append, pySplitOn, hc, if_false]
    simp only [List.append_eq, ih hcs]

theorem contains_slash_iff (l : List Char) : l.contains '/' = true ↔ '/' ∈ l := by
  simp [List.contains]

theorem get_base_reference_no_slash (s : String) (h : '/' ∉ s.data) :
    get_base_reference s = s := by
  have hc : s.data.contains '/' = false := by
    rw [← Bool.not_eq_true, contains_slash_iff]
    exact h
  simp [get_base_reference, hc, h]

theorem get_variant_size_no_slash (s : String) (h : '/' ∉ s.data) :
    get_variant_size s = Option.none := by
  have hc : s.data.contains '/' = false := by
    rw [← Bool.not_eq_true, contains_slash_iff]
    exact h
  simp [get_variant_size, hc, h]

/-- C1 (amended): for a reference `a ++ "/" ++ b` whose prefix `a` holds no
`'/'`, `get_base_reference` returns the prefix `a` before the first `'/'`,
and `get_variant_size` returns the portion of the remainder `b` up to (not
including) the next `'/'` — the second `'/'`-separated field, which is the
entire remainder only when the reference holds exactly one `'/'`; for a
reference with no `'/'`, the base is the reference itself and the size is
`None`. -/
theorem c1_reference_resolver_split :
    (∀ (a b : List Char), '/' ∉ a →
      get_base_reference (String.mk (a ++ '/' :: b)) = String.mk a ∧
      get_variant_size (String.mk (a ++ '/' :: b)) =
        some (String.mk (b.takeWhile (fun c => c ≠ '/')))) ∧
    (∀ s : String, '/' ∉ s.data →
      get_base_reference s = s ∧ get_variant_size s = Option.none) := by
  constructor
  · intro a b ha
    have hmem : '/' ∈ a ++ '/' :: b :=
      List.mem_append.mpr (Or.inr (List.mem_cons_self _ _))
    have hcont : (a ++ '/' :: b).contains '/' = true := (contains_slash_iff _).mpr hmem
    have hsplit : splitSlash (a ++ '/' :: b) = a :: pySplitOn '/' b := by
      simp [splitSlash, pySplitOn_append '/' a b ha]
    constructor
    · simp [get_base_reference, hcont, hsplit]
    · cases hb : pySplitOn '/' b with
      | nil => exact absurd hb (pySplitOn_ne_nil '/' b)
      | cons p ps =>
        have hp : p = b.takeWhile (fun c => c ≠ '/') := by
          have hh := pySplitOn_headD '/' b
          rw [hb] at hh
          simpa using hh
        simp [get_variant_size, hcont, hsplit, hb, hp]
  · intro s hs
    exact ⟨get_base_reference_no_slash s hs, get_variant_size_no_slash s hs⟩

/-- Witness for C1 at the concrete references `"AB/12"` and `"XY"`. -/
theorem c1_reference_resolver_split_witness :
    get_base_reference "AB/12" = "AB" ∧ get_variant_size "AB/12" = some "12" ∧
      get_base_reference "XY" = "XY" ∧ get_variant_size "XY" = Option.none := by
  have h1 := c1_reference_resolver_split.1 ['A', 'B'] ['1', '2'] (by decide)
  have h2 := c1_reference_resolver_split.2 "XY" (by decide)
  exact ⟨h1.1, h1.2, h2.1, h2.2⟩

/-- C1 counterexample: on `"A/B/C"` the suffix after the first `'/'` is
`"B/C"`, but `get_variant_size` returns only `"B"`, the field between the
first and the second `'/'`. -/
theorem c1_counterexample_two_slashes :
    get_variant_size "A/B/C" ≠ some "B/C" ∧ get_variant_size "A/B/C" = some "B" := by
  decide

theorem baseOf_of_not_var (row : Row) (h : isVar row = false) :
    baseOf row = refOf row := by
  have h2 : '/' ∉ (refOf row).data := by
    intro hm
    rw [isVar, is_variant_reference, (contains_slash_iff _).mpr hm] at h
    exact Bool.true_eq_false.mp h
  exact get_base_reference_no_slash _ h2

theorem lookupA_append {β : Type} (l1 l2 : List (String × β)) (k : String) :
    lookupA (l1 ++ l2) k = (lookupA l1 k).or (lookupA l2 k) := by
  induction l1 with
  | nil => simp [lookupA]
  | cons p ps ih => by_cases h : p.1 = k <;> simp [lookupA, h, ih]

theorem lookupA_updateA {β : Type} (l : List (String × β)) (k : String) (f : β → β)
    (b : String) :
    lookupA (updateA l k f) b =
      if b = k then (lookupA l b).map f else lookupA l b := by
  induction l with
  | nil => simp [lookupA, updateA]
  | cons p ps ih =>
    by_cases h1 : p.1 = k <;> by_cases h2 : b = k <;> by_cases h3 : p.1 = b <;>
      simp_all [lookupA, updateA]

theorem lookupA_registerBase (acc : List (String × ProductGroup)) (row : Row)
    (b : String) :
    lookupA (registerBase acc row) b =
      if b = baseOf row then
        (lookupA acc b).or (some (ProductGroup.mk false row []))
      else lookupA acc b := by
  unfold registerBase
  cases h : lookupA acc (baseOf row) with
  | some v =>
    simp only [h, Option.isSome_some, if_true]
    by_cases hb : b = baseOf row
    · subst hb
      simp [h]
    · simp [hb]
  | none =>
    simp only [h, Option.isSome_none, Bool.false_eq_true, if_false]
    rw [lookupA_append]
    by_cases hb : b = baseOf row
    · subst hb
      simp [h, lookupA]
    · have hne : ¬ baseOf row = b := fun hx => hb hx.symm
      cases hc : lookupA acc b <;> simp [hb, lookupA, hne, hc]
theorem option_some_or {α : Type} (a : α) (o : Option α) : (some a).or o = some a :=
  rfl

theorem groupInv_step (ps : List Row) (acc : List (String × ProductGroup)) (row : Row)
    (h : groupInv ps acc) : groupInv (ps ++ [row]) (groupStep acc row) := by
  obtain ⟨h1, h2⟩ := h
  have key : ∀ (f : ProductGroup → ProductGroup) (b : String),
      lookupA (updateA (registerBase acc row) (baseOf row) f) b =
        if b = baseOf row then
          ((lookupA acc b).or (some (ProductGroup.mk false row []))).map f
        else lookupA acc b := by
    intro f b
    rw [lookupA_updateA, lookupA_registerBase]
    by_cases hb : b = baseOf row <;> simp [hb]
  have hlook : ∀ b, lookupA (groupStep acc row) b =
      if b = baseOf row then
        ((lookupA acc b).or (some (ProductGroup.mk false row []))).map
          (if isVar row then
            (fun g => ProductGroup.mk true g.base_data (g.variants ++ [row]))
           else
            (fun g => if g.variants.isEmpty then
                ProductGroup.mk g.is_variant_product g.base_data [row]
              else g))
      else lookupA acc b := by
    intro b
    cases hv : isVar row <;> simp only [groupStep, hv, Bool.false_eq_true, if_true, if_false] <;>
      rw [key]
  constructor
  · intro b
    rw [hlook b]
    by_cases hb : b = baseOf row
    · subst hb
      apply iff_of_true
      · cases hc : lookupA acc (baseOf row) <;> simp [hc]
      · exact ⟨row, by simp, rfl⟩
    · simp only [hb, if_false]
      rw [h1 b]
      constructor
      · rintro ⟨r, hr, e⟩
        exact ⟨r, List.mem_append.mpr (Or.inl hr), e⟩
      · rintro ⟨r, hr, e⟩
        rcases List.mem_append.mp hr with hr | hr
        · exact ⟨r, hr, e⟩
        · rw [List.mem_singleton.mp hr] at e
          exact absurd e.symm hb
  · intro b g hg
    rw [hlook b] at hg
    by_cases hb : b = baseOf row
    · subst hb
      rw [if_pos rfl] at hg
      cases hacc : lookupA acc (baseOf row) with
      | none =>
        have hne : ¬ ∃ r ∈ ps, baseOf r = baseOf row := by
          rw [← h1 (baseOf row), hacc]
          simp
        have hfind : ps.find? (fun r => baseOf r == baseOf row) = Option.none := by
          apply List.find?_eq_none.mpr
          intro x hx
          simp only [beq_iff_eq]
          exact fun e => hne ⟨x, hx, e⟩
        have hfind2 : (ps ++ [row]).find? (fun r => baseOf r == baseOf row) = some row := by
          rw [List.find?_append, hfind]
          simp [List.find?]
        rw [hacc] at hg
        cases hv : isVar row with
        | false =>
          -- the fresh bucket keeps `false` and stores the row
          simp only [hv, Bool.false_eq_true, if_false, Option.none_or, Option.map_some,
            Option.map_some', List.isEmpty_nil, if_true, Option.some.injEq] at hg
          subst hg
          refine ⟨?_, by simpa using hfind2⟩
          constructor
          · intro hfalse
            exact absurd hfalse (by simp)
          · rintro ⟨r, hr, e, hvr⟩
            rcases List.mem_append.mp hr with hr | hr
            · exact absurd ⟨r, hr, e⟩ hne
            · rw [List.mem_singleton.mp hr] at hvr
              rw [hv] at hvr
              exact absurd hvr (by simp)
        | true =>
          -- the fresh bucket is a variant bucket holding the row
          simp only [hv, if_true, Option.none_or, Option.map_some, Option.map_some',
            Option.some.injEq] at hg
          subst hg
          exact ⟨iff_of_true rfl ⟨row, by simp, rfl, hv⟩, by simpa using hfind2⟩
      | some gOld =>
        have hOld := h2 (baseOf row) gOld hacc
        have hEx : ∃ r ∈ ps, baseOf r = baseOf row := by
          rw [← h1 (baseOf row)]
          simp [hacc]
        have hfind2 : (ps ++ [row]).find? (fun r => baseOf r == baseOf row) =
            some gOld.base_data := by
          rw [List.find?_append, hOld.2]
          simp
        rw [hacc] at hg
        cases hv : isVar row with
        | false =>
          -- the bucket's flag and base_data are gOld's
          simp only [hv, Bool.false_eq_true, if_false, option_some_or, Option.map_some,
            Option.map_some', Option.some.injEq] at hg
          have hflag : g.is_variant_product = gOld.is_variant_product := by
            rw [← hg]
            by_cases he : gOld.variants.isEmpty <;> simp [he]
          have hbase : g.base_data = gOld.base_data := by
            rw [← hg]
            by_cases he : gOld.variants.isEmpty <;> simp [he]
          refine ⟨?_, ?_⟩
          · rw [hflag, hOld.1]
            constructor
            · rintro ⟨r, hr, e, hvr⟩
              exact ⟨r, List.mem_append.mpr (Or.inl hr), e, hvr⟩
            · rintro ⟨r, hr, e, hvr⟩
              rcases List.mem_append.mp hr with hr | hr
              · exact ⟨r, hr, e, hvr⟩
              · rw [List.mem_singleton.mp hr] at hvr
                rw [hv] at hvr
                exact absurd hvr (by simp)
          · rw [hfind2, hbase]
        | true =>
          -- the bucket becomes a variant bucket with base_data kept
          simp only [hv, if_true, option_some_or, Option.map_some, Option.map_some',
            Option.some.injEq] at hg
          subst hg
          exact ⟨iff_of_true rfl ⟨row, by simp, rfl, hv⟩, by simpa using hfind2⟩
    · rw [if_neg hb] at hg
      have hOld := h2 b g hg
      have hfind2 : (ps ++ [row]).find? (fun r => baseOf r == b) = some g.base_data := by
        rw [List.find?_append, hOld.2]
        simp
      refine ⟨?_, hfind2⟩
      rw [hOld.1]
      constructor
      · rintro ⟨r, hr, e, hvr⟩
        exact ⟨r, List.mem_append.mpr (Or.inl hr), e, hvr⟩
      · rintro ⟨r, hr, e, hvr⟩
        rcases List.mem_append.mp hr with hr | hr
        · exact ⟨r, hr, e, hvr⟩
        · rw [List.mem_singleton.mp hr] at e
          exact absurd e.symm hb

theorem groupInv_nil : groupInv [] [] := by
  constructor
  · intro b
    simp [lookupA]
  · intro b g hg
    simp [lookupA] at hg

theorem groupInv_foldl (rows ps : List Row) (acc : List (String × ProductGroup))
    (h : groupInv ps acc) :
    groupInv (ps ++ rows) (List.foldl groupStep acc rows) := by
  induction rows generalizing ps acc with
  | nil => simpa using h
  | cons r rs ih =>
    have hstep := groupInv_step ps acc r h
    have htail := ih (ps ++ [r]) (groupStep acc r) hstep
    simpa [List.append_assoc] using htail

theorem group_variants_inv (rows : List Row) : groupInv rows (group_variants rows) := by
  have h := groupInv_foldl rows [] [] groupInv_nil
  simpa [group_variants] using h

/-- C4 (amended): grouping a single row whose cleaned reference carries no
slash yields exactly one bucket, keyed by that reference, that is a simple
product (`is_variant_product` is false) whose `variants` list holds
exactly the row itself — one entry, not zero: `group_variants` stores the
single row of a simple product in the bucket's `variants` list. -/
theorem c4_single_slashless_row (row : Row) (h : isVar row = false) :
    group_variants [row] = [(refOf row, ProductGroup.mk false row [row])] := by
  have hb := baseOf_of_not_var row h
  simp [group_variants, groupStep, registerBase, lookupA, updateA, h, hb]

/-- Witness for C4 at the concrete row with reference `"XYZ"`. -/
theorem c4_single_slashless_row_witness :
    group_variants [xyzRow] = [("XYZ", ProductGroup.mk false xyzRow [xyzRow])] := by
  have h := c4_single_slashless_row xyzRow (by decide)
  have e : refOf xyzRow = "XYZ" := by decide
  rw [e] at h
  exact h

/-- C4 counterexample: the claim as stated says the `"XYZ"` bucket has
zero variants, but the bucket produced by `group_variants` stores the row
itself in `variants`, so its `variants` list is not empty. -/
theorem c4_counterexample_variants_not_empty :
    ¬ ∃ g : ProductGroup, group_variants [xyzRow] = [("XYZ", g)] ∧
      g.is_variant_product = false ∧ g.variants = [] := by
  rintro ⟨g, hEq, _, hvar⟩
  have h2 : group_variants [xyzRow] = [("XYZ", ProductGroup.mk false xyzRow [xyzRow])] := by
    decide
  rw [h2] at hEq
  simp only [List.cons.injEq, Prod.mk.injEq, true_and, and_true] at hEq
  rw [← hEq] at hvar
  simp at hvar

/-- C5: grouping `["ABC/S", "ABC/M"]` yields exactly one bucket, keyed
`"ABC"`, marked as a variant product and holding exactly the two rows as
variants (sized `S` and `M`); in general a bucket is marked a variant
product if and only if some row of its base reference carries a
`'/'`-suffix, and the bucket's `base_data` is the first row encountered
for that base reference. -/
theorem c5_variant_grouping :
    (∀ r1 r2 : Row, refOf r1 = "ABC/S" → refOf r2 = "ABC/M" →
      group_variants [r1, r2] = [("ABC", ProductGroup.mk true r1 [r1, r2])] ∧
      get_variant_size (refOf r1) = some "S" ∧ get_variant_size (refOf r2) = some "M") ∧
    (∀ (rows : List Row) (b : String) (g : ProductGroup),
      lookupA (group_variants rows) b = some g →
      ((g.is_variant_product = true ↔ ∃ r ∈ rows, baseOf r = b ∧ isVar r = true) ∧
        rows.find? (fun r => baseOf r == b) = some g.base_data)) := by
  constructor
  · intro r1 r2 e1 e2
    have hv1 : isVar r1 = true := by
      rw [isVar, e1]
      decide
    have hv2 : isVar r2 = true := by
      rw [isVar, e2]
      decide
    have hb1 : baseOf r1 = "ABC" := by
      rw [baseOf, e1]
      decide
    have hb2 : baseOf r2 = "ABC" := by
      rw [baseOf, e2]
      decide
    refine ⟨?_, by rw [e1]; decide, by rw [e2]; decide⟩
    simp [group_variants, groupStep, registerBase, lookupA, updateA, hv1, hv2, hb1, hb2]
  · intro rows b g hg
    exact (group_variants_inv rows).2 b g hg

/-- Witness for C5 at the concrete rows `abcSRow` and `abcMRow`. -/
theorem c5_variant_grouping_witness :
    group_variants [abcSRow, abcMRow] =
      [("ABC", ProductGroup.mk true abcSRow [abcSRow, abcMRow])] ∧
    ((ProductGroup.mk true abcSRow [abcSRow, abcMRow]).is_variant_product = true ↔
      ∃ r ∈ [abcSRow, abcMRow], baseOf r = "ABC" ∧ isVar r = true) := by
  constructor
  · exact (c5_variant_grouping.1 abcSRow abcMRow (by decide) (by decide)).1
  · exact (c5_variant_grouping.2 [abcSRow, abcMRow] "ABC"
      (ProductGroup.mk true abcSRow [abcSRow, abcMRow]) (by decide)).1

/-- C9: when the first row of a base reference has no `'/'` and a later
row of the same base carries one, the bucket is reclassified as a variant
product while the earlier slashless row stays in the `variants` list, so
`variants` mixes the plain base row with the `'/'`-suffixed row. -/
theorem c9_mixed_variants_list (r1 r2 : Row) (h1 : isVar r1 = false)
    (h2 : isVar r2 = true) (hb : baseOf r2 = baseOf r1) :
    group_variants [r1, r2] = [(baseOf r1, ProductGroup.mk true r1 [r1, r2])] := by
  simp [group_variants, groupStep, registerBase, lookupA, updateA, h1, h2, hb]

/-- Witness for C9 at the rows with references `"ABC"` and `"ABC/S"`. -/
theorem c9_mixed_variants_list_witness :
    group_variants [abcPlainRow, abcSRow] =
      [("ABC", ProductGroup.mk true abcPlainRow [abcPlainRow, abcSRow])] := by
  have h := c9_mixed_variants_list abcPlainRow abcSRow (by decide) (by decide) (by decide)
  have e : baseOf abcPlainRow = "ABC" := by decide
  rw [e] at h
  exact h

theorem updPR (x r : ProductRow) (he : x.internal_reference = r.internal_reference) :
    ({ x with shopify_product_id := r.shopify_product_id, shopify_handle := r.shopify_handle, title := r.title } : ProductRow) = r := by
  obtain ⟨xr, xi, xh, xt⟩ := x
  obtain ⟨rr, ri, rh, rt⟩ := r
  simp only at he
  simp [he]

theorem upsertProduct_filter_self (t : List ProductRow) (r : ProductRow)
    (h : uniqueRefs t) :
    (upsertProduct t r).filter
      (fun p => p.internal_reference == r.internal_reference) = [r] := by
  induction t with
  | nil => simp [upsertProduct, List.filter]
  | cons x xs ih =>
    have hx : ∀ y ∈ xs, x.internal_reference ≠ y.internal_reference :=
      (List.pairwise_cons.mp h).1
    have hxs : uniqueRefs xs := (List.pairwise_cons.mp h).2
    by_cases hxr : x.internal_reference == r.internal_reference
    · have hxeq : x.internal_reference = r.internal_reference := by
        exact eq_of_beq hxr
      have hany : (x :: xs).any (fun y => y.internal_reference == r.internal_reference) = true := by
        simp [hxr]
      rw [upsertProduct, hany]
      simp only [if_true, List.map_cons, hxr, if_pos]
      rw [updPR x r hxeq]
      have hrest : (xs.map (fun y =>
          if y.internal_reference == r.internal_reference then
            { y with shopify_product_id := r.shopify_product_id, shopify_handle := r.shopify_handle, title := r.title }
          else y)).filter (fun p => p.internal_reference == r.internal_reference) = [] := by
        rw [List.filter_eq_nil_iff]
        intro z hz
        rcases List.mem_map.mp hz with ⟨y, hy, hupd⟩
        have hyne : y.internal_reference ≠ r.internal_reference := by
          intro e
          exact hx y hy (hxeq.trans e.symm)
        have hzref : z.internal_reference = y.internal_reference := by
          rw [← hupd]
          have : (y.internal_reference == r.internal_reference) = false := by
            simp [hyne]
          simp [this]
        simp [hzref, hyne]
      rw [List.filter_cons_of_pos (by simp), hrest]
    · have hxrf : (x.internal_reference == r.internal_reference) = false := by
        simp_all
      by_cases ha : xs.any (fun y => y.internal_reference == r.internal_reference)
      · have hany : (x :: xs).any (fun y => y.internal_reference == r.internal_reference) = true := by
          simp [List.any_cons, ha]
        rw [upsertProduct, hany]
        simp only [if_true, List.map_cons, hxrf, if_neg, Bool.false_eq_true, if_false]
        have ihr := ih hxs
        rw [upsertProduct, ha, if_pos rfl] at ihr
        rw [List.filter_cons_of_neg (by simp [hxrf])]
        exact ihr
      · have hany : (x :: xs).any (fun y => y.internal_reference == r.internal_reference) = false := by
          simp only [List.any_cons, hxrf, Bool.false_or]
          simpa using ha
        rw [upsertProduct, hany]
        simp only [Bool.false_eq_true, if_false, List.cons_append]
        have ihr := ih hxs
        rw [upsertProduct] at ihr
        have haf : xs.any (fun y => y.internal_reference == r.internal_reference) = false := by
          simpa using ha
        rw [haf] at ihr
        simp only [Bool.false_eq_true, if_false] at ihr
        rw [List.filter_cons_of_neg (by simp [hxrf])]
        exact ihr

theorem uniqueRefs_map (t : List ProductRow) (f : ProductRow → ProductRow)
    (hf : ∀ y, (f y).internal_reference = y.internal_reference)
    (h : uniqueRefs t) : uniqueRefs (t.map f) := by
  rw [uniqueRefs, List.pairwise_map]
  exact h.imp (fun hab => by rw [hf, hf]; exact hab)

theorem upsertProduct_unique (t : List ProductRow) (r : ProductRow)
    (h : uniqueRefs t) : uniqueRefs (upsertProduct t r) := by
  unfold upsertProduct
  by_cases ha : t.any (fun x => x.internal_reference == r.internal_reference)
  · rw [if_pos ha]
    apply uniqueRefs_map t _ _ h
    intro y
    by_cases hy : y.internal_reference == r.internal_reference <;> simp [hy]
  · rw [if_neg ha]
    rw [uniqueRefs, List.pairwise_append]
    refine ⟨h, List.pairwise_singleton _ _, ?_⟩
    intro a hat b hbr
    rw [List.mem_singleton.mp hbr]
    simp only [List.any_eq_true, not_exists, not_and] at ha
    intro e
    have := ha a hat
    simp [e] at this

theorem logSync_product_mappings (db : DBState) (ref a s m : String) (lf : Bool) :
    (logSync db ref a s m lf).product_mappings = db.product_mappings := by
  unfold logSync
  by_cases lf <;> simp [*]

theorem logSync_variant_mappings (db : DBState) (ref a s m : String) (lf : Bool) :
    (logSync db ref a s m lf).variant_mappings = db.variant_mappings := by
  unfold logSync
  by_cases lf <;> simp [*]

theorem save_product_mapping_ok_tables (db : DBState) (ref : String)
    (sp : ShopifyProduct) (lf : Bool) :
    ((save_product_mapping db ref sp Option.none lf).1).product_mappings =
      upsertProduct db.product_mappings (ProductRow.mk ref sp.id sp.handle sp.title) := by
  simp [save_product_mapping, logSync_product_mappings]

/-- C2: the product-mapping upsert is idempotent and last-write-wins.
Starting from any store whose `product_mappings` respect the unique key,
saving the same mapping twice leaves exactly one row keyed by the
reference; saving first with one remote product and then with another
makes `get_product_mapping` return the single row carrying the second
remote id. -/
theorem c2_upsert_idempotent_last_write_wins (db : DBState) (ref : String)
    (sp sp2 : ShopifyProduct) (lf1 lf2 lf3 lf4 : Bool)
    (h : uniqueRefs db.product_mappings) :
    countRef ((save_product_mapping ((save_product_mapping db ref sp Option.none lf1).1)
        ref sp Option.none lf2).1).product_mappings ref = 1 ∧
    (get_product_mapping ((save_product_mapping ((save_product_mapping db ref sp
        Option.none lf3).1) ref sp2 Option.none lf4).1) ref).map
      (fun pr => pr.1.shopify_product_id) = some sp2.id ∧
    countRef ((save_product_mapping ((save_product_mapping db ref sp Option.none lf3).1)
        ref sp2 Option.none lf4).1).product_mappings ref = 1 := by
  have step : ∀ (d : DBState) (s : ShopifyProduct) (lf : Bool),
      ((save_product_mapping d ref s Option.none lf).1).product_mappings =
        upsertProduct d.product_mappings (ProductRow.mk ref s.id s.handle s.title) :=
    fun d s lf => save_product_mapping_ok_tables d ref s lf
  have t2 : ((save_product_mapping ((save_product_mapping db ref sp Option.none lf1).1)
      ref sp Option.none lf2).1).product_mappings =
      upsertProduct (upsertProduct db.product_mappings (ProductRow.mk ref sp.id sp.handle sp.title))
        (ProductRow.mk ref sp.id sp.handle sp.title) := by
    rw [step, step]
  have t3 : ((save_product_mapping ((save_product_mapping db ref sp Option.none lf3).1)
      ref sp2 Option.none lf4).1).product_mappings =
      upsertProduct (upsertProduct db.product_mappings (ProductRow.mk ref sp.id sp.handle sp.title))
        (ProductRow.mk ref sp2.id sp2.handle sp2.title) := by
    rw [step, step]
  have hu1 : uniqueRefs (upsertProduct db.product_mappings
      (ProductRow.mk ref sp.id sp.handle sp.title)) :=
    upsertProduct_unique _ _ h
  have hf2 : (upsertProduct (upsertProduct db.product_mappings
      (ProductRow.mk ref sp.id sp.handle sp.title))
      (ProductRow.mk ref sp.id sp.handle sp.title)).filter
      (fun p => p.internal_reference == ref) = [ProductRow.mk ref sp.id sp.handle sp.title] :=
    upsertProduct_filter_self _ (ProductRow.mk ref sp.id sp.handle sp.title) hu1
  have hf3 : (upsertProduct (upsertProduct db.product_mappings
      (ProductRow.mk ref sp.id sp.handle sp.title))
      (ProductRow.mk ref sp2.id sp2.handle sp2.title)).filter
      (fun p => p.internal_reference == ref) = [ProductRow.mk ref sp2.id sp2.handle sp2.title] :=
    upsertProduct_filter_self _ (ProductRow.mk ref sp2.id sp2.handle sp2.title) hu1
  refine ⟨?_, ?_, ?_⟩
  · rw [countRef, t2, hf2]
    rfl
  · rw [get_product_mapping, t3, hf3]
    rfl
  · rw [countRef, t3, hf3]
    rfl

/-- Witness for C2 starting from the empty store with remote ids 1 and 2. -/
theorem c2_upsert_witness :
    countRef ((save_product_mapping ((save_product_mapping (DBState.mk [] [] []) "ABC"
        (ShopifyProduct.mk 1 "h" "t") Option.none false).1) "ABC"
        (ShopifyProduct.mk 1 "h" "t") Option.none false).1).product_mappings "ABC" = 1 ∧
    (get_product_mapping ((save_product_mapping ((save_product_mapping (DBState.mk [] [] [])
        "ABC" (ShopifyProduct.mk 1 "h" "t") Option.none false).1) "ABC"
        (ShopifyProduct.mk 2 "h2" "t2") Option.none false).1) "ABC").map
      (fun pr => pr.1.shopify_product_id) = some 2 ∧
    countRef ((save_product_mapping ((save_product_mapping (DBState.mk [] [] []) "ABC"
        (ShopifyProduct.mk 1 "h" "t") Option.none false).1) "ABC"
        (ShopifyProduct.mk 2 "h2" "t2") Option.none false).1).product_mappings "ABC" = 1 :=
  c2_upsert_idempotent_last_write_wins (DBState.mk [] [] []) "ABC"
    (ShopifyProduct.mk 1 "h" "t") (ShopifyProduct.mk 2 "h2" "t2") false false false false
    (by simp [uniqueRefs])

theorem delete_ok_tables (db : DBState) (ref : String) (lf : Bool) :
    ((delete_product_mapping db ref Option.none lf).1).product_mappings =
      db.product_mappings.filter (fun p => !(p.internal_reference == ref)) ∧
    ((delete_product_mapping db ref Option.none lf).1).variant_mappings =
      db.variant_mappings.filter (fun v => !(v.parent_reference == ref)) := by
  constructor
  · simp [delete_product_mapping, logSync_product_mappings]
  · simp [delete_product_mapping, logSync_variant_mappings]

/-- C3: a successful `delete_product_mapping` removes every product row
with the given reference and — through the schema's `ON DELETE CASCADE` —
every variant row whose `parent_reference` equals it; rows with other
references survive, and no variant row is left orphaned (the foreign-key
invariant is preserved). -/
theorem c3_delete_cascades (db : DBState) (ref : String) (lf : Bool) (h : fkInv db) :
    (delete_product_mapping db ref Option.none lf).2 = true ∧
    ((delete_product_mapping db ref Option.none lf).1).product_mappings =
      db.product_mappings.filter (fun p => !(p.internal_reference == ref)) ∧
    ((delete_product_mapping db ref Option.none lf).1).variant_mappings =
      db.variant_mappings.filter (fun v => !(v.parent_reference == ref)) ∧
    (∀ p ∈ ((delete_product_mapping db ref Option.none lf).1).product_mappings,
      p.internal_reference ≠ ref) ∧
    (∀ v ∈ ((delete_product_mapping db ref Option.none lf).1).variant_mappings,
      v.parent_reference ≠ ref) ∧
    (∀ v ∈ db.variant_mappings, v.parent_reference ≠ ref →
      v ∈ ((delete_product_mapping db ref Option.none lf).1).variant_mappings) ∧
    (∀ p ∈ db.product_mappings, p.internal_reference ≠ ref →
      p ∈ ((delete_product_mapping db ref Option.none lf).1).product_mappings) ∧
    fkInv ((delete_product_mapping db ref Option.none lf).1) := by
  obtain ⟨hp, hv⟩ := delete_ok_tables db ref lf
  have hret : (delete_product_mapping db ref Option.none lf).2 = true := by
    simp [delete_product_mapping]
  refine ⟨hret, hp, hv, ?_, ?_, ?_, ?_, ?_⟩
  · intro p hpin
    rw [hp] at hpin
    simpa using (List.mem_filter.mp hpin).2
  · intro v hvin
    rw [hv] at hvin
    simpa using (List.mem_filter.mp hvin).2
  · intro v hvin hvne
    rw [hv]
    exact List.mem_filter.mpr ⟨hvin, by simp [hvne]⟩
  · intro p hpin hpne
    rw [hp]
    exact List.mem_filter.mpr ⟨hpin, by simp [hpne]⟩
  · intro v hvin
    rw [hv] at hvin
    obtain ⟨hvdb, hvref⟩ := List.mem_filter.mp hvin
    obtain ⟨p, hpdb, hpref⟩ := h v hvdb
    refine ⟨p, ?_, hpref⟩
    rw [hp]
    apply List.mem_filter.mpr
    refine ⟨hpdb, ?_⟩
    simp only [Bool.not_eq_eq_eq_not, Bool.not_true, beq_eq_false_iff_ne, ne_eq] at hvref ⊢
    rw [hpref]
    exact hvref

/-- Witness for C3 on a store holding products `"ABC"` and `"DEF"` with
one variant each. -/
theorem c3_delete_cascades_witness :
    ((delete_product_mapping (DBState.mk
        [ProductRow.mk "ABC" 1 "h1" "t1", ProductRow.mk "DEF" 2 "h2" "t2"]
        [VariantRow.mk "ABC/S" 11 1 "ABC" (some "S") 5,
          VariantRow.mk "DEF/M" 21 2 "DEF" (some "M") 7]
        []) "ABC" Option.none false).1).product_mappings =
      [ProductRow.mk "DEF" 2 "h2" "t2"] ∧
    ((delete_product_mapping (DBState.mk
        [ProductRow.mk "ABC" 1 "h1" "t1", ProductRow.mk "DEF" 2 "h2" "t2"]
        [VariantRow.mk "ABC/S" 11 1 "ABC" (some "S") 5,
          VariantRow.mk "DEF/M" 21 2 "DEF" (some "M") 7]
        []) "ABC" Option.none false).1).variant_mappings =
      [VariantRow.mk "DEF/M" 21 2 "DEF" (some "M") 7] := by
  have h := c3_delete_cascades (DBState.mk
      [ProductRow.mk "ABC" 1 "h1" "t1", ProductRow.mk "DEF" 2 "h2" "t2"]
      [VariantRow.mk "ABC/S" 11 1 "ABC" (some "S") 5,
        VariantRow.mk "DEF/M" 21 2 "DEF" (some "M") 7]
      []) "ABC" false (by unfold fkInv; decide)
  refine ⟨?_, ?_⟩
  · rw [h.2.1]
    decide
  · rw [h.2.2.1]
    decide

/-- C6: every mutating mapping-store call appends exactly one sync-log
entry whose status records success or error, and a failure of the log
append itself is swallowed: it changes neither the caller's return value
nor the mapping tables the primary write produced. -/
theorem c6_sync_log_append (db : DBState) (ref sku pref : String)
    (sp : ShopifyProduct) (v : ShopifyVariant) (size : Option String)
    (price : Option ℚ) (qf : Option String) (lf : Bool) :
    (((save_product_mapping db ref sp qf false).1).sync_log =
      db.sync_log ++ [match qf with
        | Option.none => LogRow.mk ref "create_product" "success"
            ("Product mapped successfully. Shopify ID: " ++ toString sp.id)
        | some emsg => LogRow.mk ref "create_product" "error" emsg] ∧
    ((save_product_mapping db ref sp qf true).1).sync_log = db.sync_log ∧
    (save_product_mapping db ref sp qf lf).2 = (save_product_mapping db ref sp qf false).2 ∧
    ((save_product_mapping db ref sp qf lf).1).product_mappings =
      ((save_product_mapping db ref sp qf false).1).product_mappings ∧
    ((save_product_mapping db ref sp qf lf).1).variant_mappings =
      ((save_product_mapping db ref sp qf false).1).variant_mappings) ∧
    (((save_variant_mapping db sku v pref size price qf false).1).sync_log =
      db.sync_log ++ [match qf with
        | Option.none => LogRow.mk sku "create_variant" "success"
            ("Variant mapped successfully. Shopify ID: " ++ toString v.id)
        | some emsg => LogRow.mk sku "create_variant" "error" emsg] ∧
    ((save_variant_mapping db sku v pref size price qf true).1).sync_log = db.sync_log ∧
    (save_variant_mapping db sku v pref size price qf lf).2 =
      (save_variant_mapping db sku v pref size price qf false).2 ∧
    ((save_variant_mapping db sku v pref size price qf lf).1).product_mappings =
      ((save_variant_mapping db sku v pref size price qf false).1).product_mappings ∧
    ((save_variant_mapping db sku v pref size price qf lf).1).variant_mappings =
      ((save_variant_mapping db sku v pref size price qf false).1).variant_mappings) ∧
    (((delete_product_mapping db ref qf false).1).sync_log =
      db.sync_log ++ [match qf with
        | Option.none => LogRow.mk ref "delete_product" "success"
            "Product mapping deleted successfully"
        | some emsg => LogRow.mk ref "delete_product" "error" emsg] ∧
    ((delete_product_mapping db ref qf true).1).sync_log = db.sync_log ∧
    (delete_product_mapping db ref qf lf).2 = (delete_product_mapping db ref qf false).2 ∧
    ((delete_product_mapping db ref qf lf).1).product_mappings =
      ((delete_product_mapping db ref qf false).1).product_mappings ∧
    ((delete_product_mapping db ref qf lf).1).variant_mappings =
      ((delete_product_mapping db ref qf false).1).variant_mappings) := by
  rcases qf with _ | emsg <;> cases lf <;>
    simp [save_product_mapping, save_variant_mapping, delete_product_mapping, logSync]

theorem validate_false_of_missing (row : Row) (h : hasMissingRequired row = true) :
    (validate_product_data row).1 = false := by
  cases h1 : fieldMissingVal row.referencia <;> cases h2 : fieldMissing row.descripcion <;>
    cases h3 : fieldMissing row.precio <;> cases h4 : fieldMissing row.tipo <;>
    simp_all [validate_product_data, hasMissingRequired]

theorem processRecord_invalid (outcome : String → Bool) (st : LoopState)
    (rec : String × ProductGroup) (h : hasMissingRequired rec.2.base_data = true) :
    processRecord outcome st rec = LoopState.mk st.processed (st.failed + 1) st.built := by
  unfold processRecord
  cases hd : rec.2.base_data.descripcion with
  | none => rfl
  | some d =>
    have hval : (validate_product_data rec.2.base_data).1 = false :=
      validate_false_of_missing _ h
    simp [hval]

/-- C7: a grouped record one of whose four required fields (reference,
description, price, type) is absent or blank is skipped: the failure
counter grows by one, no payload construction is reached for it, and the
remaining records are processed exactly as they would have been — the
loop continues from the bumped state. The record indeed fails
`validate_product_data` (when the description column is absent the
per-record exception handler produces the same skip). -/
theorem c7_skip_invalid_record (outcome : String → Bool)
    (pre post : List (String × ProductGroup)) (rec : String × ProductGroup)
    (h : hasMissingRequired rec.2.base_data = true) :
    (validate_product_data rec.2.base_data).1 = false ∧
    process_products_loop outcome (pre ++ rec :: post) =
      List.foldl (processRecord outcome)
        (LoopState.mk (process_products_loop outcome pre).processed
          ((process_products_loop outcome pre).failed + 1)
          (process_products_loop outcome pre).built) post := by
  refine ⟨validate_false_of_missing _ h, ?_⟩
  unfold process_products_loop
  rw [List.foldl_append, List.foldl_cons, processRecord_invalid outcome _ rec h]

/-- Witness for C7: a blank-price record is skipped as failed and the
following valid record is still processed. -/
theorem c7_skip_invalid_record_witness :
    process_products_loop (fun _ => true)
      [("DEF", ProductGroup.mk false badPriceRow [badPriceRow]),
        ("XYZ", ProductGroup.mk false xyzRow [xyzRow])] = LoopState.mk 1 1 ["XYZ"] := by
  have h := (c7_skip_invalid_record (fun _ => true) []
    [("XYZ", ProductGroup.mk false xyzRow [xyzRow])]
    ("DEF", ProductGroup.mk false badPriceRow [badPriceRow]) (by decide)).2
  simp only [List.nil_append] at h
  rw [h]
  decide

theorem charListLe_iff (as bs : List Char) :
    charListLe as bs = true ↔ ¬ List.Lex (· < ·) bs as := by
  induction as generalizing bs with
  | nil =>
    simp [charListLe]
  | cons a as ih =>
    cases bs with
    | nil =>
      simp only [charListLe, Bool.false_eq_true, false_iff, not_not]
      exact List.Lex.nil
    | cons b bs =>
      simp only [charListLe]
      by_cases hab : a = b
      · subst hab
        simp only [if_pos rfl]
        rw [List.Lex.cons_iff]
        exact ih bs
      · rw [if_neg hab, decide_eq_true_iff]
        constructor
        · intro hlt hlex
          cases hlex with
          | cons h => exact hab rfl
          | rel h => exact absurd hlt (lt_asymm h)
        · intro hn
          rcases lt_trichotomy a b with h | h | h
          · exact h
          · exact absurd h hab
          · exact absurd (List.Lex.rel h) hn

theorem pyStrLe_iff (a b : String) : pyStrLe a b ↔ a ≤ b := by
  rw [pyStrLe, charListLe_iff, String.le_iff_toList_le, ← not_lt]
  rfl

theorem pySortedSet_spec (xs : List String) :
    (pySortedSet xs).Sorted (· ≤ ·) ∧ (pySortedSet xs).Nodup ∧
      (∀ s, s ∈ pySortedSet xs ↔ s ∈ xs) := by
  haveI : IsTotal String pyStrLe :=
    ⟨fun a b => by rw [pyStrLe_iff, pyStrLe_iff]; exact le_total a b⟩
  haveI : IsTrans String pyStrLe :=
    ⟨fun a b c hab hbc => by
      rw [pyStrLe_iff] at hab hbc ⊢
      exact le_trans hab hbc⟩
  have hperm := List.perm_insertionSort pyStrLe xs.dedup
  refine ⟨?_, ?_, ?_⟩
  · exact List.Pairwise.imp (fun h => (pyStrLe_iff _ _).mp h)
      (List.sorted_insertionSort pyStrLe xs.dedup)
  · exact hperm.symm.nodup (List.nodup_dedup xs)
  · intro s
    rw [pySortedSet, hperm.mem_iff, List.mem_dedup]

/-- C8: the creation payload of a variant product carries exactly one
option, named `Talla`, whose value list is the distinct variant sizes in
ascending order (duplicates removed), alongside one variant payload per
entry of `variants_data` (carrying that entry's size, price and sku). -/
theorem c8_variant_payload (pd : ProductData) (vds : List VariantData) :
    ∃ V : List String,
      (create_variant_product_payload pd vds).options = [("Talla", V)] ∧
      V.Sorted (· ≤ ·) ∧ V.Nodup ∧
      (∀ s, s ∈ V ↔ s ∈ vds.map (fun v => v.size)) ∧
      (create_variant_product_payload pd vds).variants =
        vds.map (fun v => VariantPayload.mk v.size v.price v.sku) ∧
      (create_variant_product_payload pd vds).variants.length = vds.length := by
  obtain ⟨hs, hn, hm⟩ := pySortedSet_spec (vds.map (fun v => v.size))
  refine ⟨pySortedSet (vds.map (fun v => v.size)), ?_, hs, hn, hm, ?_, ?_⟩
  · rfl
  · rfl
  · simp [create_variant_product_payload]

/-- C10: `format_price` is total: when `float` succeeds on the (for
strings: stripped and comma-normalized) input it returns that float, and
whenever the conversion fails it returns `0.0` instead of raising; the
string branch applies exactly `stripNonNumeric` then `commaToPoint`. -/
theorem c10_format_price_total (v : PyVal) :
    ((pyFloatOfVal (cleanedInput v)).isOk = true →
      Except.ok (format_price v) = pyFloatOfVal (cleanedInput v)) ∧
    ((pyFloatOfVal (cleanedInput v)).isOk = false → format_price v = PyFloat.num 0) ∧
    (∀ s : String, cleanedInput (PyVal.str s) = PyVal.str (commaToPoint (stripNonNumeric s))) := by
  refine ⟨?_, ?_, fun s => rfl⟩
  · intro h
    unfold format_price
    cases he : pyFloatOfVal (cleanedInput v) with
    | ok f => simp
    | error e =>
      rw [he] at h
      simp [Except.isOk, Except.toBool] at h
  · intro h
    unfold format_price
    cases he : pyFloatOfVal (cleanedInput v) with
    | ok f =>
      rw [he] at h
      simp [Except.isOk, Except.toBool] at h
    | error e => simp

/-- Witness for C10: a string with junk characters and a decimal comma
converts through the cleaning pipeline, and `None` falls back to `0.0`. -/
theorem c10_format_price_total_witness :
    Except.ok (format_price (PyVal.str "1a2,5x")) =
      pyFloatOfVal (cleanedInput (PyVal.str "1a2,5x")) ∧
    format_price PyVal.none = PyFloat.num 0 :=
  ⟨(c10_format_price_total (PyVal.str "1a2,5x")).1 (by decide),
    (c10_format_price_total PyVal.none).2.1 (by decide)⟩


end ShopifySync
